import Mathlib

/-!
# Verification of the Budget Tracker backend

A shallow embedding of the Django/DRF backend in
`Exam-Budget-Tracker-App/server`: the budget CRUD resource
(`budgets/models.py`, `budgets/serializers.py`, `budgets/views.py`), the
user registration and logout endpoints (`users/serializers.py`,
`users/views.py`, `users/models.py`) and the health-check route
(`health_check/urls.py`).

Python strings manipulated character-wise (the budget title) are embedded
as `List Char`; strings only compared for equality (usernames, emails,
passwords) stay `String`.  Database tables are `List`s of records; each
HTTP handler is a pure function from the table(s) and the request to a
response and the new table(s).
-/

namespace BudgetTracker

/-! ## Decimal values

`budgets/models.py` declares `initial_amount` as
`DecimalField(max_digits=10, decimal_places=2,
validators=[MinValueValidator(0.01)])`.  A submitted amount is parsed by
Python's `decimal.Decimal`, which keeps the mantissa digits and the
exponent as written (trailing zeros are significant: `0.050` has three
decimal places).  `Dec` embeds such a parsed literal: the value is
`mantissa / 10 ^ scale`.  Scientific notation with a positive exponent
(`1E+2`) is outside the embedded input space. -/

structure Dec where
  mantissa : Int
  scale : Nat
  deriving Repr, DecidableEq

/-- The rational value of a parsed decimal literal. -/
def Dec.val (d : Dec) : ℚ := (d.mantissa : ℚ) / (10 : ℚ) ^ d.scale

/-- Digit count worker, structurally recursive on a fuel bound (any fuel
with `n < 10 ^ fuel` gives the digit count of `n`). -/
def numDigitsAux (fuel n : Nat) : Nat :=
  match fuel with
  | 0 => 1
  | fuel' + 1 => if n < 10 then 1 else numDigitsAux fuel' (n / 10) + 1

/-- Number of digits of `n` in base 10 (`numDigits 0 = 1`), the length of
`decimal.Decimal`'s digit tuple for a mantissa `n`. -/
def numDigits (n : Nat) : Nat := numDigitsAux n n

/-- DRF `DecimalField.validate_precision` for
`max_digits=10, decimal_places=2` (so `max_whole_digits = 8`), from
`rest_framework/fields.py`, on a parsed decimal with exponent
`-scale`.  Returns the error message raised, or `none` if the value
passes. -/
def validate_precision (d : Dec) : Option String :=
  let len := numDigits d.mantissa.natAbs
  let total := if d.scale = 0 then len else if d.scale < len then len else d.scale
  let decimals := if d.scale = 0 then 0 else d.scale
  let whole := if d.scale = 0 then len else if d.scale < len then len - d.scale else 0
  if 10 < total then some "Ensure that there are no more than 10 digits in total."
  else if 2 < decimals then some "Ensure that there are no more than 2 decimal places."
  else if 8 < whole then some "Ensure that there are no more than 8 digits before the decimal point."
  else none

/-- `BudgetSerializer.validate_initial_amount` (budgets/serializers.py):
rejects a value `<= 0` or `> 999999999.99`, returns the value unchanged
otherwise.  The value it receives has already been quantized to two
decimal places, so it is embedded as a count of cents. -/
def validate_initial_amount (cents : Int) : Except String Int :=
  if cents ≤ 0 then Except.error "Initial amount must be greater than 0."
  else if (99999999999 : Int) < cents then Except.error "Initial amount is too large."
  else Except.ok cents

/-- The exact rational value of the Python float literal `0.01`, the
limit of `MinValueValidator(0.01)` (budgets/models.py): the nearest
IEEE-754 double to 1/100 is `5764607523034235 / 2 ^ 59`, slightly above
1/100 — so in Python `Decimal('0.01') < 0.01` is true and the validator
rejects a submitted 0.01. -/
def minValueLimit : ℚ := 5764607523034235 / 576460752303423488

/-- The full validation run DRF performs on a submitted `initial_amount`:
`DecimalField.to_internal_value` (precision check, then quantization to
two decimal places), the `MinValueValidator(0.01)` inherited from the
model field, and finally the serializer's `validate_initial_amount`
method.  The result is the accepted amount in cents.  The min-value
check compares the quantized value against the FLOAT `0.01`, that is
`value < 5764607523034235 / 2 ^ 59`; cross-multiplying
`cents / 100 < 5764607523034235 / 2 ^ 59` by `100 * 2 ^ 59` gives the
integer comparison below (`min_value_check_iff`), which a count of cents
satisfies exactly when `cents ≤ 1` (`min_value_check_int`) — so a
submitted 0.01 is rejected. -/
def initialAmountField (d : Dec) : Except String Int :=
  match validate_precision d with
  | some e => Except.error e
  | none =>
    -- after the precision check the written scale is at most 2,
    -- so quantization to two places is exact
    let cents : Int := d.mantissa * (10 : Int) ^ (2 - d.scale)
    if cents * 576460752303423488 < 576460752303423500 then
      Except.error "Ensure this value is greater than or equal to 0.01."
    else validate_initial_amount cents

/-! ## Title validation

`Budget.title` is a `CharField(max_length=255)`; DRF's `CharField` has
`trim_whitespace=True` and `allow_blank=False` by default, so
`run_validation` rejects a blank (empty after stripping) value,
`to_internal_value` strips the value, the `MaxLengthValidator(255)` runs
on the stripped value, and then `BudgetSerializer.validate_title` runs. -/

/-- Python `str.strip()` on a character list. -/
def pyStrip (s : List Char) : List Char :=
  ((s.dropWhile Char.isWhitespace).reverse.dropWhile Char.isWhitespace).reverse

/-- `BudgetSerializer.validate_title` (budgets/serializers.py): rejects an
empty or whitespace-only value and a value longer than 255 characters,
returns the stripped value otherwise. -/
def validate_title (value : List Char) : Except String (List Char) :=
  if value = [] ∨ pyStrip value = [] then Except.error "Title cannot be empty."
  else if 255 < value.length then Except.error "Title must be at most 255 characters."
  else Except.ok (pyStrip value)

/-- The full validation run DRF performs on a submitted `title`:
`CharField.run_validation` (blank check on the stripped value, strip in
`to_internal_value`, `MaxLengthValidator(255)` on the stripped value),
then the serializer's `validate_title` method.  `none` embeds a payload
with no `title` key. -/
def titleField (data : Option (List Char)) : Except String (List Char) :=
  match data with
  | none => Except.error "Title is required."
  | some v =>
    if pyStrip v = [] then Except.error "Title cannot be blank."
    else
      let internal := pyStrip v
      if 255 < internal.length then Except.error "Title must be at most 255 characters."
      else validate_title internal

/-! ## The Budget model and viewset

`Budget` (budgets/models.py): owner foreign key, title, optional
description, date, amount, server-set timestamps.  Dates and timestamps
are embedded as ordinals (`Nat`); the amount is stored in cents
(`numeric(10,2)` in the database). -/

structure Budget where
  id : Nat
  userId : Nat
  title : List Char
  description : List Char
  date : Nat
  initialAmountCents : Int
  createdAt : Nat
  deriving Repr, DecidableEq

/-- A create/update request body for the budget endpoints.  `user` embeds
a client-supplied ownership field: it is in `read_only_fields` of
`BudgetSerializer`, so validation never reads it. -/
structure BudgetPayload where
  user : Option Nat
  title : Option (List Char)
  description : Option (List Char)
  date : Option Nat
  initial_amount : Option Dec
  deriving Repr, DecidableEq

/-- The fields of a budget payload after `BudgetSerializer` validation
succeeds. -/
structure ValidatedBudget where
  title : List Char
  description : List Char
  date : Nat
  amountCents : Int
  deriving Repr, DecidableEq

/-- `DateField` validation plus `BudgetSerializer.validate_date`: the
field is required; a present, well-formed date is returned as is
(malformed date strings fail at parse time, before the embedding's
input space). -/
def dateField (data : Option Nat) : Except String Nat :=
  match data with
  | none => Except.error "Date is required."
  | some v => Except.ok v

/-- The `initial_amount` field as a whole: required, then the
`initialAmountField` pipeline. -/
def amountField (data : Option Dec) : Except String Int :=
  match data with
  | none => Except.error "Initial amount is required."
  | some d => initialAmountField d

/-- `BudgetSerializer.is_valid` on a request body: runs the title, amount
and date pipelines; `description` is optional and defaults to blank.
The client-supplied `user` field is read-only and ignored. -/
def budgetIsValid (p : BudgetPayload) : Except (List (String × String)) ValidatedBudget :=
  let tr := titleField p.title
  let ar := amountField p.initial_amount
  let dr := dateField p.date
  match tr, ar, dr with
  | Except.ok t, Except.ok c, Except.ok dt =>
      Except.ok ⟨t, p.description.getD [], dt, c⟩
  | _, _, _ =>
      Except.error
        ((match tr with | Except.error e => [("title", e)] | _ => [])
          ++ (match ar with | Except.error e => [("initial_amount", e)] | _ => [])
          ++ (match dr with | Except.error e => [("date", e)] | _ => []))

/-- The responses a budget endpoint can produce.  `forbidden` (403) is
DRF's object-permission denial; it is in the response vocabulary so that
"never Forbidden" is a statement, but `BudgetViewSet` has only
`IsAuthenticated`, which never denies per object. -/
inductive BudgetResponse where
  | ok (b : Budget)
  | okList (bs : List Budget)
  | noContent
  | badRequest (errors : List (String × String))
  | notFound
  | forbidden
  deriving Repr, DecidableEq

/-- `BudgetViewSet.get_queryset` (budgets/views.py): only the
authenticated user's budgets. -/
def get_queryset (db : List Budget) (requester : Nat) : List Budget :=
  db.filter (fun b => b.userId == requester)

/-- DRF's `get_object`: look the primary key up in the view's queryset;
a miss is a 404, whoever owns the row. -/
def get_object (db : List Budget) (requester : Nat) (pk : Nat) : Option Budget :=
  (get_queryset db requester).find? (fun b => b.id == pk)

/-- The ordering `['-date', '-created_at']` of `Budget.Meta`
(budgets/models.py): date descending, then creation time descending. -/
def budgetOrd (b₁ b₂ : Budget) : Prop :=
  b₂.date < b₁.date ∨ (b₁.date = b₂.date ∧ b₂.createdAt ≤ b₁.createdAt)

instance : DecidableRel budgetOrd := fun b₁ b₂ => by
  unfold budgetOrd; infer_instance

instance : IsTotal Budget budgetOrd :=
  ⟨fun b₁ b₂ => by unfold budgetOrd; omega⟩

instance : IsTrans Budget budgetOrd :=
  ⟨fun b₁ b₂ b₃ h₁ h₂ => by unfold budgetOrd at *; omega⟩

/-- The `list` action: the user's queryset in the model's ordering. -/
def listBudgets (db : List Budget) (requester : Nat) : List Budget :=
  List.insertionSort budgetOrd (get_queryset db requester)

/-- The `retrieve` action (`GET /api/budgets/{pk}/`). -/
def retrieveBudget (db : List Budget) (requester : Nat) (pk : Nat) : BudgetResponse :=
  match get_object db requester pk with
  | none => BudgetResponse.notFound
  | some b => BudgetResponse.ok b

/-- The `create` action (`POST /api/budgets/`): validate, then
`perform_create` saves with `user=self.request.user` (budgets/views.py).
`newId` and `now` embed the database-assigned primary key and the
`auto_now_add` timestamp. -/
def createBudget (db : List Budget) (requester : Nat) (p : BudgetPayload)
    (newId now : Nat) : BudgetResponse × List Budget :=
  match budgetIsValid p with
  | Except.error es => (BudgetResponse.badRequest es, db)
  | Except.ok v =>
      let b : Budget := ⟨newId, requester, v.title, v.description, v.date, v.amountCents, now⟩
      (BudgetResponse.ok b, b :: db)

/-- The `update` action (`PUT /api/budgets/{pk}/`): `get_object` over the
owner-filtered queryset, full validation, then `perform_update` saves
with `user=self.request.user` (budgets/views.py).
`ModelSerializer.update` sets only the attributes present in
`validated_data`, so an omitted optional `description` keeps the stored
value instead of being reset to blank. -/
def updateBudget (db : List Budget) (requester : Nat) (pk : Nat)
    (p : BudgetPayload) : BudgetResponse × List Budget :=
  match get_object db requester pk with
  | none => (BudgetResponse.notFound, db)
  | some b =>
      match budgetIsValid p with
      | Except.error es => (BudgetResponse.badRequest es, db)
      | Except.ok v =>
          let b' : Budget :=
            { b with userId := requester, title := v.title,
                     description := p.description.getD b.description,
                     date := v.date,
                     initialAmountCents := v.amountCents }
          (BudgetResponse.ok b',
            db.map (fun x => if x.id == pk ∧ x.userId == requester then b' else x))

/-- The `destroy` action (`DELETE /api/budgets/{pk}/`): `get_object` over
the owner-filtered queryset, then the row is deleted. -/
def deleteBudget (db : List Budget) (requester : Nat) (pk : Nat) :
    BudgetResponse × List Budget :=
  match get_object db requester pk with
  | none => (BudgetResponse.notFound, db)
  | some _ =>
      (BudgetResponse.noContent,
        db.filter (fun x => ¬(x.id == pk ∧ x.userId == requester)))

/-! ## Users: registration

`User` (users/models.py): username and email unique, password stored
hashed by `User.objects.create_user`. -/

structure RegUser where
  id : Nat
  username : String
  email : String
  passwordHash : String
  deriving Repr, DecidableEq

/-- `django.contrib.auth` password hashing, as called by `create_user`
(third-party code): embedded abstractly as an injective tagging of the
raw password. -/
def hashPassword (password : String) : String :=
  "pbkdf2_sha256$" ++ password

/-- The body of `POST /api/users/register/`: the four writable fields of
`UserRegistrationSerializer` (users/serializers.py). -/
structure RegPayload where
  username : String
  email : String
  password : String
  password_confirm : String
  deriving Repr, DecidableEq

/-- The serializer's representation of the created user
(`serializer.data`): the writable fields minus the two `write_only`
password fields, so the response carries only username and email. -/
structure RegResponse where
  username : String
  email : String
  deriving Repr, DecidableEq

/-- `UserViewSet.register` (users/views.py) with
`UserRegistrationSerializer` (users/serializers.py).  Field-level
validation first, collecting errors per field: `min_length=8` on both
password fields, `validate_username` (uniqueness), `validate_email`
(uniqueness).  Object-level `validate` (password/confirm match) runs only
when the fields pass, as DRF does.  On success `create` pops
`password_confirm` and calls `create_user`, which hashes the password;
the response is the serializer's data.  Email-format checking and the
settings-configured strength validators beyond the length minimum are
outside the embedding; they only shrink the success set.  `newId` embeds
the database-assigned primary key. -/
def register (db : List RegUser) (newId : Nat) (p : RegPayload) :
    Except (List (String × String)) (List RegUser × RegResponse) :=
  let fieldErrors :=
    (if p.password.length < 8 then
        [("password", "Password must be at least 8 characters long.")] else [])
    ++ (if p.password_confirm.length < 8 then
        [("password_confirm", "Password must be at least 8 characters long.")] else [])
    ++ (if db.any (fun u => u.username == p.username) then
        [("username", "This username is already taken.")] else [])
    ++ (if db.any (fun u => u.email == p.email) then
        [("email", "This email is already registered.")] else [])
  if fieldErrors ≠ [] then Except.error fieldErrors
  else if p.password ≠ p.password_confirm then
    Except.error [("password_confirm", "Passwords do not match.")]
  else
    let u : RegUser := ⟨newId, p.username, p.email, hashPassword p.password⟩
    Except.ok (u :: db, ⟨p.username, p.email⟩)

/-! ## Users: logout and the token blacklist

A `simplejwt` refresh token: `RefreshToken(s)` verifies the signature,
the expiry and the token type of the wire string `s`.  A wire token is
embedded as either unverifiable garbage or a correctly signed payload
carrying the subject user and the expiry. -/

structure TokPayload where
  userId : Nat
  exp : Nat
  deriving Repr, DecidableEq

/-- A refresh-token string as submitted on the wire. -/
inductive RawTok where
  | garbage (s : String)
  | signed (p : TokPayload)
  deriving Repr, DecidableEq

/-- `RefreshToken(refresh_token)` (third-party `simplejwt`): fails on an
unparseable or badly signed string and on an expired token, otherwise
yields the verified payload. -/
def verifyRefresh (now : Nat) : RawTok → Except String TokPayload
  | RawTok.garbage _ => Except.error "Token is invalid or expired"
  | RawTok.signed p =>
      if p.exp ≤ now then Except.error "Token is invalid or expired"
      else Except.ok p

/-- The persistent stores the user endpoints touch: the `users` table,
the `budgets` table and the `token_blacklist` table
(`TokenBlacklist` in users/models.py, append-only rows holding the
re-serialized token). -/
structure ServerState where
  users : List RegUser
  budgets : List Budget
  blacklist : List TokPayload
  deriving Repr, DecidableEq

/-- The responses of `POST /api/users/logout/`. -/
inductive LogoutResponse where
  | okLoggedOut
  | badRequest (detail : String)
  | unauthorized
  deriving Repr, DecidableEq

/-- `UserViewSet.logout` (users/views.py).  `IsAuthenticated` rejects an
unauthenticated caller (401).  A missing (or empty, hence falsy)
`refresh_token` is a 400; a token `RefreshToken` cannot verify is a 400
via the `except` branch; otherwise the verified token is inserted into
`TokenBlacklist` and the call succeeds.  The authenticated user `auth`
is never compared with the token's subject. -/
def logout (st : ServerState) (auth : Option Nat) (body : Option RawTok)
    (now : Nat) : LogoutResponse × ServerState :=
  match auth with
  | none => (LogoutResponse.unauthorized, st)
  | some _ =>
      match body with
      | none => (LogoutResponse.badRequest "Refresh token is required.", st)
      | some raw =>
          match verifyRefresh now raw with
          | Except.error e => (LogoutResponse.badRequest ("Invalid token: " ++ e), st)
          | Except.ok p =>
              (LogoutResponse.okLoggedOut, { st with blacklist := p :: st.blacklist })

/-- Modelled from the spec: `POST /api/token/refresh/` is the third-party
`TokenRefreshView` wired in api/urls.py, not code of this repository.
Spec: "`refresh(refresh_token)`: fails with Unauthorized if token
invalid/expired; else issues new access token."  It reads no server
state, so in particular no blacklist check is wired into it. -/
def refresh (now : Nat) (raw : RawTok) : Except String TokPayload :=
  match verifyRefresh now raw with
  | Except.error _ => Except.error "Token is invalid or expired"
  | Except.ok p => Except.ok ⟨p.userId, now + 1⟩

/-! ## Health check -/

/-- An HTTP request as the health-check route sees it: an optional
authenticated user and the request path. -/
structure HttpRequest where
  auth : Option Nat
  path : String
  deriving Repr, DecidableEq

/-- A JSON-object response. -/
structure HttpResponse where
  status : Nat
  body : List (String × String)
  deriving Repr, DecidableEq

/-- Modelled from the spec: `health_check.views.health_check` is not in
the source tree (only its route in health_check/urls.py and its tests
are).  Spec: GET /up is a health check returning status 200 with body
status ok and no auth.  The handler reads nothing from the request. -/
def health_check (_req : HttpRequest) : HttpResponse :=
  ⟨200, [("status", "ok")]⟩

/-! ## Arithmetic lemmas about the digit count -/

theorem numDigitsAux_spec (fuel : Nat) : ∀ n, n < 10 ^ fuel →
    n < 10 ^ numDigitsAux fuel n ∧ ∀ k, 1 ≤ k → n < 10 ^ k → numDigitsAux fuel n ≤ k := by
  induction fuel with
  | zero =>
      intro n h
      simp only [pow_zero, Nat.lt_one_iff] at h
      subst h
      exact ⟨by simp [numDigitsAux], fun k hk _ => by simpa [numDigitsAux] using hk⟩
  | succ fuel ih =>
      intro n h
      rw [numDigitsAux]
      by_cases hn : n < 10
      · simp only [hn, if_true]
        exact ⟨by simpa using hn, fun k hk _ => hk⟩
      · simp only [hn, if_false]
        have hdiv : n / 10 < 10 ^ fuel := by
          rw [pow_succ] at h
          omega
        obtain ⟨h1, h2⟩ := ih (n / 10) hdiv
        refine ⟨?_, ?_⟩
        · rw [pow_succ]
          omega
        · intro k hk hnk
          have hk2 : 2 ≤ k := by
            rcases Nat.lt_or_ge k 2 with hlt | hge
            · interval_cases k <;> omega
            · exact hge
          have hstep : n / 10 < 10 ^ (k - 1) := by
            have : 10 ^ k = 10 ^ (k - 1) * 10 := by
              rw [← pow_succ]
              congr 1
              omega
            rw [this] at hnk
            omega
          have := h2 (k - 1) (by omega) hstep
          omega

theorem one_le_numDigitsAux (fuel n : Nat) : 1 ≤ numDigitsAux fuel n := by
  cases fuel with
  | zero => simp [numDigitsAux]
  | succ fuel =>
      rw [numDigitsAux]
      split <;> omega

theorem lt_pow_numDigits (n : Nat) : n < 10 ^ numDigits n :=
  (numDigitsAux_spec n n (Nat.lt_pow_self (by norm_num) n)).1

theorem numDigits_le (n k : Nat) (hk : 1 ≤ k) (h : n < 10 ^ k) : numDigits n ≤ k :=
  (numDigitsAux_spec n n (Nat.lt_pow_self (by norm_num) n)).2 k hk h

theorem one_le_numDigits (n : Nat) : 1 ≤ numDigits n := one_le_numDigitsAux n n

/-! ## Characterization of the amount pipeline -/

theorem validate_precision_none_iff_parts (d : Dec) :
    validate_precision d = none ↔
      ((if d.scale = 0 then numDigits d.mantissa.natAbs
        else if d.scale < numDigits d.mantissa.natAbs then numDigits d.mantissa.natAbs
        else d.scale) ≤ 10 ∧
       (if d.scale = 0 then 0 else d.scale) ≤ 2 ∧
       (if d.scale = 0 then numDigits d.mantissa.natAbs
        else if d.scale < numDigits d.mantissa.natAbs then numDigits d.mantissa.natAbs - d.scale
        else 0) ≤ 8) := by
  simp only [validate_precision]
  split_ifs <;> simp_all <;> omega

/-- The DRF precision check for `max_digits=10, decimal_places=2` passes
exactly on decimals written with at most two decimal places whose count
of cents has at most ten digits. -/
theorem validate_precision_none_iff (d : Dec) :
    validate_precision d = none ↔
      d.scale ≤ 2 ∧ d.mantissa.natAbs * 10 ^ (2 - d.scale) < 10 ^ 10 := by
  obtain ⟨m, s⟩ := d
  have hlen1 : 1 ≤ numDigits m.natAbs := one_le_numDigits _
  have hiff : ∀ K, 1 ≤ K → (numDigits m.natAbs ≤ K ↔ m.natAbs < 10 ^ K) := by
    intro K hK
    constructor
    · intro h
      exact lt_of_lt_of_le (lt_pow_numDigits _) (Nat.pow_le_pow_right (by norm_num) h)
    · intro h
      exact numDigits_le _ K hK h
  have e1 := hiff 1 (by norm_num)
  have e2 := hiff 2 (by norm_num)
  have e8 := hiff 8 (by norm_num)
  have e9 := hiff 9 (by norm_num)
  have e10 := hiff 10 (by norm_num)
  norm_num at e1 e2 e8 e9 e10
  rw [validate_precision_none_iff_parts]
  rcases s with _ | _ | _ | s
  · norm_num
    omega
  · norm_num
    split_ifs <;> omega
  · norm_num
    split_ifs <;> omega
  · norm_num
    split_ifs <;> omega

theorem natAbs_cents (m : Int) (k : Nat) :
    (m * 10 ^ k).natAbs = m.natAbs * 10 ^ k := by
  rw [Int.natAbs_mul, Int.natAbs_pow]
  norm_num

/-- The embedded min-value comparison is exactly
`value < float 0.01` for a value of `cents / 100`. -/
theorem min_value_check_iff (cents : Int) :
    cents * 576460752303423488 < 576460752303423500 ↔
      (cents : ℚ) / 100 < minValueLimit := by
  unfold minValueLimit
  rw [div_lt_div_iff (by norm_num) (by norm_num)]
  norm_num
  exact_mod_cast Iff.rfl

/-- On an integer count of cents, comparing against the float `0.01`
rejects exactly `cents ≤ 1`: a submitted 0.01 (one cent) fails the
validator, 0.02 is the least accepted value. -/
theorem min_value_check_int (cents : Int) :
    cents * 576460752303423488 < 576460752303423500 ↔ cents ≤ 1 := by
  omega

theorem initialAmountField_eq_ok (d : Dec) (h2 : d.scale ≤ 2)
    (hlo : 2 ≤ d.mantissa * 10 ^ (2 - d.scale))
    (hhi : d.mantissa * 10 ^ (2 - d.scale) ≤ 9999999999) :
    initialAmountField d = Except.ok (d.mantissa * 10 ^ (2 - d.scale)) := by
  have hnone : validate_precision d = none := by
    rw [validate_precision_none_iff]
    refine ⟨h2, ?_⟩
    have habs : (d.mantissa * 10 ^ (2 - d.scale)).natAbs ≤ 9999999999 := by omega
    rw [natAbs_cents] at habs
    norm_num
    omega
  unfold initialAmountField
  rw [hnone]
  simp only [validate_initial_amount]
  split_ifs <;> first | rfl | omega

theorem initialAmountField_ok_inv (d : Dec) (c : Int)
    (h : initialAmountField d = Except.ok c) :
    d.scale ≤ 2 ∧ c = d.mantissa * 10 ^ (2 - d.scale) ∧ 2 ≤ c ∧ c ≤ 9999999999 := by
  unfold initialAmountField at h
  cases hv : validate_precision d with
  | some e => rw [hv] at h; cases h
  | none =>
      rw [hv] at h
      obtain ⟨h2, hlt⟩ := (validate_precision_none_iff d).mp hv
      have habs : d.mantissa.natAbs * 10 ^ (2 - d.scale) ≤ 9999999999 := by
        norm_num at hlt
        omega
      rw [← natAbs_cents] at habs
      simp only [validate_initial_amount] at h
      split_ifs at h with ha hb hc
      all_goals try cases h
      exact ⟨h2, rfl, by omega, by omega⟩

/-- A count of cents accepted by the pipeline is exactly a hundred times
the submitted decimal's value. -/
theorem cents_cast (d : Dec) (h2 : d.scale ≤ 2) :
    ((d.mantissa * 10 ^ (2 - d.scale) : Int) : ℚ) = d.val * 100 := by
  obtain ⟨m, s⟩ := d
  simp only [Dec.val] at *
  have hpow : (10:ℚ) ^ (2 - s) * 10 ^ s = 100 := by
    rw [← pow_add]
    have : 2 - s + s = 2 := by omega
    rw [this]
    norm_num
  have hne : ((10:ℚ) ^ s) ≠ 0 := pow_ne_zero _ (by norm_num)
  push_cast
  rw [div_mul_eq_mul_div, eq_div_iff hne]
  rw [mul_assoc, hpow]

theorem initialAmountField_nonpos (d : Dec) (h : d.mantissa ≤ 0) :
    ∃ e, initialAmountField d = Except.error e := by
  unfold initialAmountField
  cases hv : validate_precision d with
  | some e => exact ⟨e, rfl⟩
  | none =>
      have hpow : (0:Int) < 10 ^ (2 - d.scale) := by positivity
      have hc : d.mantissa * 10 ^ (2 - d.scale) ≤ 0 :=
        mul_nonpos_of_nonpos_of_nonneg h hpow.le
      simp only [validate_initial_amount]
      split_ifs
      all_goals first
        | exact ⟨_, rfl⟩
        | omega

theorem initialAmountField_over_cap (d : Dec)
    (h : 99999999999 * 10 ^ d.scale < 100 * d.mantissa) :
    ∃ e, initialAmountField d = Except.error e := by
  unfold initialAmountField
  cases hv : validate_precision d with
  | some e => exact ⟨e, rfl⟩
  | none =>
      obtain ⟨h2, _⟩ := (validate_precision_none_iff d).mp hv
      have hpows : (0:Int) < 10 ^ d.scale := by positivity
      have key : 100 * d.mantissa = d.mantissa * 10 ^ (2 - d.scale) * 10 ^ d.scale := by
        have hp : (10:Int) ^ (2 - d.scale) * 10 ^ d.scale = 100 := by
          rw [← pow_add]
          have : 2 - d.scale + d.scale = 2 := by omega
          rw [this]
          norm_num
        rw [mul_assoc, hp, mul_comm]
      have hcents : 99999999999 < d.mantissa * 10 ^ (2 - d.scale) := by
        by_contra hle
        push_neg at hle
        have := mul_le_mul_of_nonneg_right hle hpows.le
        rw [← key] at this
        linarith
      simp only [validate_initial_amount]
      split_ifs
      all_goals first
        | exact ⟨_, rfl⟩
        | omega

/-- The value of a submitted decimal is nonpositive exactly when its
mantissa is. -/
theorem val_nonpos_iff (d : Dec) : d.val ≤ 0 ↔ d.mantissa ≤ 0 := by
  unfold Dec.val
  have hb : (0:ℚ) < 10 ^ d.scale := by positivity
  rw [div_nonpos_iff]
  constructor
  · rintro (⟨_, h2⟩ | ⟨h1, _⟩)
    · exact absurd h2 (not_le.mpr hb)
    · exact_mod_cast h1
  · intro h
    right
    exact ⟨by exact_mod_cast h, hb.le⟩

/-- The value of a submitted decimal exceeds 999999999.99 exactly when
`99999999999 * 10 ^ scale < 100 * mantissa`. -/
theorem val_gt_cap_iff (d : Dec) :
    (999999999.99 : ℚ) < d.val ↔ 99999999999 * 10 ^ d.scale < 100 * d.mantissa := by
  unfold Dec.val
  have hb : (0:ℚ) < 10 ^ d.scale := by positivity
  rw [lt_div_iff hb, show (999999999.99 : ℚ) = 99999999999 / 100 by norm_num,
    div_mul_eq_mul_div, div_lt_iff (by norm_num : (0:ℚ) < 100)]
  rw [mul_comm (d.mantissa : ℚ) 100]
  exact_mod_cast Iff.rfl

/-! ## Stripping lemmas for the title pipeline -/

theorem dropWhile_pyStrip (l : List Char) :
    List.dropWhile Char.isWhitespace (pyStrip l) = pyStrip l := by
  have hps : pyStrip l =
      List.rdropWhile Char.isWhitespace (List.dropWhile Char.isWhitespace l) := rfl
  rw [hps, List.dropWhile_eq_self_iff]
  intro hl
  rw [List.get_eq_getElem]
  have hpre : List.rdropWhile Char.isWhitespace (List.dropWhile Char.isWhitespace l) <+:
      List.dropWhile Char.isWhitespace l :=
    List.rdropWhile_prefix Char.isWhitespace (List.dropWhile Char.isWhitespace l)
  have hwlen : 0 < (List.dropWhile Char.isWhitespace l).length :=
    lt_of_lt_of_le hl hpre.length_le
  rw [hpre.getElem hl]
  have hnot := List.dropWhile_get_zero_not Char.isWhitespace l hwlen
  rw [List.get_eq_getElem] at hnot
  exact hnot

/-- Stripping is idempotent, as Python's `str.strip` is. -/
theorem pyStrip_idempotent (l : List Char) : pyStrip (pyStrip l) = pyStrip l := by
  have e : ∀ s : List Char,
      pyStrip s = List.rdropWhile Char.isWhitespace (List.dropWhile Char.isWhitespace s) :=
    fun s => rfl
  rw [e (pyStrip l), dropWhile_pyStrip, e l, List.rdropWhile_idempotent]

/-- What the title pipeline accepts and returns: the checks of
`validate_title` on the already-stripped value never fire anew, so the
outcome is decided by the stripped submission. -/
theorem titleField_characterization (data : Option (List Char)) :
    titleField data =
      match data with
      | none => Except.error "Title is required."
      | some v =>
          if pyStrip v = [] then Except.error "Title cannot be blank."
          else if 255 < (pyStrip v).length then
            Except.error "Title must be at most 255 characters."
          else Except.ok (pyStrip v) := by
  cases data with
  | none => rfl
  | some v =>
      simp only [titleField]
      by_cases hb : pyStrip v = []
      · simp [hb]
      · rw [if_neg hb, if_neg hb]
        by_cases hlen : 255 < (pyStrip v).length
        · rw [if_pos hlen, if_pos hlen]
        · rw [if_neg hlen, if_neg hlen]
          unfold validate_title
          have hne : ¬(pyStrip v = [] ∨ pyStrip (pyStrip v) = []) := by
            rw [pyStrip_idempotent]
            tauto
          rw [if_neg hne, if_neg hlen, pyStrip_idempotent]

theorem titleField_ok_inv (v t : List Char) (h : titleField (some v) = Except.ok t) :
    t = pyStrip v := by
  rw [titleField_characterization] at h
  dsimp only at h
  by_cases h1 : pyStrip v = []
  · rw [if_pos h1] at h
    cases h
  · rw [if_neg h1] at h
    by_cases h2 : 255 < (pyStrip v).length
    · rw [if_pos h2] at h
      cases h
    · rw [if_neg h2] at h
      injection h with h
      exact h.symm

theorem budgetIsValid_ok_inv (p : BudgetPayload) (vb : ValidatedBudget)
    (h : budgetIsValid p = Except.ok vb) :
    titleField p.title = Except.ok vb.title ∧
    amountField p.initial_amount = Except.ok vb.amountCents ∧
    dateField p.date = Except.ok vb.date ∧
    vb.description = p.description.getD [] := by
  unfold budgetIsValid at h
  cases htr : titleField p.title <;> rw [htr] at h <;>
    cases har : amountField p.initial_amount <;> rw [har] at h <;>
      cases hdr : dateField p.date <;> rw [hdr] at h <;> simp_all
  cases h
  simp

/-! ## Claim theorems -/

/-- C5 (counterexample): 123456789.00 is a valid decimal in
(0, 999999999.99], yet the pipeline rejects it — the model field's
`max_digits=10` limit fires before the serializer's 999999999.99 cap, so
the claim's acceptance range is wrong. -/
theorem initialAmount_cap_counterexample :
    (0 : ℚ) < Dec.val ⟨12345678900, 2⟩ ∧
    Dec.val ⟨12345678900, 2⟩ ≤ 999999999.99 ∧
    ∀ c : Int, initialAmountField ⟨12345678900, 2⟩ ≠ Except.ok c := by
  refine ⟨by norm_num [Dec.val], by norm_num [Dec.val], ?_⟩
  intro c h
  have he : initialAmountField ⟨12345678900, 2⟩ =
      Except.error "Ensure that there are no more than 10 digits in total." := by rfl
  rw [he] at h
  cases h

/-- C5 (amended): a nonpositive value (`mantissa ≤ 0`, i.e. `val ≤ 0`) is
rejected; a value of at most one cent — including a submitted 0.01,
because `MinValueValidator`'s limit is the FLOAT 0.01, which exceeds
1/100 (`min_value_check_int`) — is rejected; a value over 999999999.99
(the integer form of `999999999.99 < val`, see `val_gt_cap_iff`) is
rejected; and a decimal written with at most two decimal places whose
count of cents lies in [2, 9999999999] — i.e. a value in
[0.02, 99999999.99] — is accepted with its value unchanged (`cents_cast`
ties the accepted cents back to the submitted value).  Values in
(99999999.99, 999999999.99] are rejected by the 10-digit limit, not
accepted as the original claim stated. -/
theorem initialAmount_validation (d : Dec) :
    (d.mantissa ≤ 0 → ∃ e, initialAmountField d = Except.error e) ∧
    (d.mantissa * 10 ^ (2 - d.scale) ≤ 1 →
      ∃ e, initialAmountField d = Except.error e) ∧
    (99999999999 * 10 ^ d.scale < 100 * d.mantissa →
      ∃ e, initialAmountField d = Except.error e) ∧
    (d.scale ≤ 2 → 2 ≤ d.mantissa * 10 ^ (2 - d.scale) →
      d.mantissa * 10 ^ (2 - d.scale) ≤ 9999999999 →
      initialAmountField d = Except.ok (d.mantissa * 10 ^ (2 - d.scale)) ∧
      ((d.mantissa * 10 ^ (2 - d.scale) : Int) : ℚ) = d.val * 100) := by
  refine ⟨initialAmountField_nonpos d, ?_, initialAmountField_over_cap d, ?_⟩
  · intro hle
    unfold initialAmountField
    cases hv : validate_precision d with
    | some e => exact ⟨e, rfl⟩
    | none =>
        simp only [validate_initial_amount]
        split_ifs
        all_goals first
          | exact ⟨_, rfl⟩
          | omega
  · intro h2 hlo hhi
    exact ⟨initialAmountField_eq_ok d h2 hlo hhi, cents_cast d h2⟩

/-- C5 (witness): 0.00, 0.01 and 1234567890.0 are rejected, 5000.00 is
accepted as 500000 cents. -/
theorem initialAmount_validation_witness :
    (∃ e, initialAmountField ⟨0, 2⟩ = Except.error e) ∧
    (∃ e, initialAmountField ⟨1, 2⟩ = Except.error e) ∧
    (∃ e, initialAmountField ⟨12345678900, 1⟩ = Except.error e) ∧
    (initialAmountField ⟨500000, 2⟩ = Except.ok (500000 * 10 ^ (2 - 2)) ∧
      ((500000 * 10 ^ (2 - 2) : Int) : ℚ) = Dec.val ⟨500000, 2⟩ * 100) :=
  ⟨(initialAmount_validation ⟨0, 2⟩).1 (by decide),
   (initialAmount_validation ⟨1, 2⟩).2.1 (by decide),
   (initialAmount_validation ⟨12345678900, 1⟩).2.2.1 (by decide),
   (initialAmount_validation ⟨500000, 2⟩).2.2.2 (by decide) (by decide) (by decide)⟩

/-- C10: a submitted amount written with three or more decimal places is
rejected (even 0.005, which is positive and below the cap), and every
accepted amount is an integer count of cents between 1 and 9999999999 —
at most ten digits with exactly two decimal places — equal to a hundred
times the submitted value. -/
theorem amount_two_decimal_places (d : Dec) :
    (3 ≤ d.scale → ∃ e, initialAmountField d = Except.error e) ∧
    (∀ c, initialAmountField d = Except.ok c →
      1 ≤ c ∧ c ≤ 9999999999 ∧ (c : ℚ) = d.val * 100) := by
  constructor
  · intro h3
    unfold initialAmountField
    cases hv : validate_precision d with
    | some e => exact ⟨e, rfl⟩
    | none =>
        exfalso
        obtain ⟨h2, _⟩ := (validate_precision_none_iff d).mp hv
        omega
  · intro c h
    obtain ⟨h2, hc, h2c, hcap⟩ := initialAmountField_ok_inv d c h
    refine ⟨by omega, hcap, ?_⟩
    rw [hc]
    exact cents_cast d h2

/-- C10 (witness): 0.005 is rejected; 5000.00 is accepted as 500000 cents
with the stated bounds. -/
theorem amount_two_decimal_places_witness :
    (∃ e, initialAmountField ⟨5, 3⟩ = Except.error e) ∧
    (1 ≤ (500000 : Int) ∧ (500000 : Int) ≤ 9999999999 ∧
      ((500000 : Int) : ℚ) = Dec.val ⟨500000, 2⟩ * 100) :=
  ⟨(amount_two_decimal_places ⟨5, 3⟩).1 (by decide),
   (amount_two_decimal_places ⟨500000, 2⟩).2 500000 (by rfl)⟩

set_option maxRecDepth 4000 in
/-- C6 (counterexample): a 256-character submission whose stripped form is
the single character `a` is accepted (DRF's `CharField` strips before the
`MaxLengthValidator` runs), so "any string longer than 255 characters is
rejected" is wrong. -/
theorem title_overlong_accepted_counterexample :
    255 < ('a' :: List.replicate 255 ' ').length ∧
    titleField (some ('a' :: List.replicate 255 ' ')) = Except.ok ['a'] := by
  constructor
  · decide
  · rfl

/-- C6 (amended): a missing, empty or whitespace-only title is rejected; a
title whose STRIPPED form exceeds 255 characters is rejected; otherwise
the stored title is the submitted string with leading and trailing
whitespace removed — in particular a raw submission longer than 255
characters is accepted whenever its stripped form fits. -/
theorem title_validation (v : List Char) :
    titleField none = Except.error "Title is required." ∧
    (pyStrip v = [] → titleField (some v) = Except.error "Title cannot be blank.") ∧
    (255 < (pyStrip v).length →
      titleField (some v) = Except.error "Title must be at most 255 characters.") ∧
    ((pyStrip v).length ≤ 255 → pyStrip v ≠ [] →
      titleField (some v) = Except.ok (pyStrip v)) ∧
    (∀ db u newId now p b db2, p.title = some v →
      createBudget db u p newId now = (BudgetResponse.ok b, db2) →
      b.title = pyStrip v) := by
  refine ⟨rfl, ?_, ?_, ?_, ?_⟩
  · intro hb
    rw [titleField_characterization]
    simp [hb]
  · intro hlen
    have hb : pyStrip v ≠ [] := by
      intro h
      rw [h] at hlen
      simp at hlen
    rw [titleField_characterization]
    simp only [if_neg hb, if_pos hlen]
  · intro hlen hb
    rw [titleField_characterization]
    simp only [if_neg hb, if_neg (not_lt.mpr hlen)]
  · intro db u newId now p b db2 hp hcb
    unfold createBudget at hcb
    cases hbv : budgetIsValid p with
    | error es => rw [hbv] at hcb; cases hcb
    | ok vb =>
        rw [hbv] at hcb
        obtain ⟨ht, _, _, _⟩ := budgetIsValid_ok_inv p vb hbv
        rw [hp] at ht
        have hteq := titleField_ok_inv v vb.title ht
        dsimp only at hcb
        simp only [Prod.mk.injEq] at hcb
        obtain ⟨h1, _⟩ := hcb
        injection h1 with h1
        rw [← h1]
        exact hteq

set_option maxRecDepth 4000 in
/-- C6 (witness): a whitespace-only title and a 256-character stripped
title are rejected; `"  hi  "` is accepted as `"hi"`; a created budget
stores the stripped title. -/
theorem title_validation_witness :
    titleField (some ("   ".toList)) = Except.error "Title cannot be blank." ∧
    titleField (some (List.replicate 256 'a')) =
      Except.error "Title must be at most 255 characters." ∧
    titleField (some ("  hi  ".toList)) = Except.ok (pyStrip ("  hi  ".toList)) ∧
    (Budget.mk 5 1 ['h', 'i'] [] 0 100 3).title = pyStrip ("  hi  ".toList) :=
  ⟨(title_validation ("   ".toList)).2.1 (by decide),
   (title_validation (List.replicate 256 'a')).2.2.1 (by decide),
   (title_validation ("  hi  ".toList)).2.2.2.1 (by decide) (by decide),
   (title_validation ("  hi  ".toList)).2.2.2.2 [] 1 5 3
     (BudgetPayload.mk (some 9) (some ("  hi  ".toList)) none (some 0) (some ⟨100, 2⟩))
     (Budget.mk 5 1 ['h', 'i'] [] 0 100 3) [Budget.mk 5 1 ['h', 'i'] [] 0 100 3]
     (by rfl) (by rfl)⟩

theorem get_object_cross_user_none
    (db : List Budget) (A : Nat) (b : Budget)
    (hmem : b ∈ db) (hAB : A ≠ b.userId)
    (huniq : ∀ b2 ∈ db, b2.id = b.id → b2 = b) :
    get_object db A b.id = none := by
  unfold get_object get_queryset
  rw [List.find?_eq_none]
  intro x hx
  rw [List.mem_filter] at hx
  obtain ⟨hxdb, hxu⟩ := hx
  rw [beq_iff_eq] at hxu
  simp only [beq_iff_eq]
  intro hid
  have hxb := huniq x hxdb hid
  rw [hxb] at hxu
  exact hAB hxu.symm

/-- C1: a retrieve, update or delete by a user `A` on a budget owned by a
different user `B` answers NotFound (the lookup runs over the
owner-filtered queryset), never Forbidden, and leaves the table
unchanged.  The primary key is unique in the table (`huniq`). -/
theorem cross_user_access_notFound
    (db : List Budget) (A B : Nat) (b : Budget) (p : BudgetPayload)
    (hB : b.userId = B) (hAB : A ≠ B) (hmem : b ∈ db)
    (huniq : ∀ b2 ∈ db, b2.id = b.id → b2 = b) :
    retrieveBudget db A b.id = BudgetResponse.notFound ∧
    updateBudget db A b.id p = (BudgetResponse.notFound, db) ∧
    deleteBudget db A b.id = (BudgetResponse.notFound, db) ∧
    retrieveBudget db A b.id ≠ BudgetResponse.forbidden ∧
    (updateBudget db A b.id p).1 ≠ BudgetResponse.forbidden ∧
    (deleteBudget db A b.id).1 ≠ BudgetResponse.forbidden := by
  have hobj : get_object db A b.id = none := by
    apply get_object_cross_user_none db A b hmem _ huniq
    rw [hB]
    exact hAB
  refine ⟨?_, ?_, ?_, ?_, ?_, ?_⟩ <;>
    simp [retrieveBudget, updateBudget, deleteBudget, hobj]

/-- C1 (witness): user 1 on user 2's budget with id 7. -/
theorem cross_user_access_notFound_witness :
    retrieveBudget [Budget.mk 7 2 ['b'] [] 0 100 0] 1 7 = BudgetResponse.notFound ∧
    updateBudget [Budget.mk 7 2 ['b'] [] 0 100 0] 1 7
        (BudgetPayload.mk none none none none none) =
      (BudgetResponse.notFound, [Budget.mk 7 2 ['b'] [] 0 100 0]) ∧
    deleteBudget [Budget.mk 7 2 ['b'] [] 0 100 0] 1 7 =
      (BudgetResponse.notFound, [Budget.mk 7 2 ['b'] [] 0 100 0]) ∧
    retrieveBudget [Budget.mk 7 2 ['b'] [] 0 100 0] 1 7 ≠ BudgetResponse.forbidden ∧
    (updateBudget [Budget.mk 7 2 ['b'] [] 0 100 0] 1 7
        (BudgetPayload.mk none none none none none)).1 ≠ BudgetResponse.forbidden ∧
    (deleteBudget [Budget.mk 7 2 ['b'] [] 0 100 0] 1 7).1 ≠ BudgetResponse.forbidden :=
  cross_user_access_notFound [Budget.mk 7 2 ['b'] [] 0 100 0] 1 2
    (Budget.mk 7 2 ['b'] [] 0 100 0) (BudgetPayload.mk none none none none none)
    (by decide) (by decide) (by decide) (by decide)

/-- C2: `perform_create` and `perform_update` save with
`user=self.request.user`, and the serializer's `user` field is read-only:
a successful create yields a budget owned by the requester prepended to
the table, a successful update yields a budget owned by the requester,
and the client-supplied `user` field never influences either endpoint. -/
theorem owner_forced_to_requester
    (db : List Budget) (u : Nat) (p : BudgetPayload) (newId now pk : Nat) :
    (∀ b db2, createBudget db u p newId now = (BudgetResponse.ok b, db2) →
      b.userId = u ∧ db2 = b :: db) ∧
    (∀ b db2, updateBudget db u pk p = (BudgetResponse.ok b, db2) → b.userId = u) ∧
    (∀ v, createBudget db u { p with user := v } newId now =
      createBudget db u p newId now) ∧
    (∀ v, updateBudget db u pk { p with user := v } = updateBudget db u pk p) := by
  refine ⟨?_, ?_, fun v => rfl, fun v => rfl⟩
  · intro b db2 h
    unfold createBudget at h
    cases hbv : budgetIsValid p with
    | error es => rw [hbv] at h; cases h
    | ok vb =>
        rw [hbv] at h
        dsimp only at h
        simp only [Prod.mk.injEq] at h
        obtain ⟨h1, h2⟩ := h
        injection h1 with h1
        rw [← h1]
        exact ⟨rfl, by rw [← h2, h1]⟩
  · intro b db2 h
    unfold updateBudget at h
    cases hobj : get_object db u pk with
    | none => rw [hobj] at h; cases h
    | some b0 =>
        rw [hobj] at h
        cases hbv : budgetIsValid p with
        | error es => rw [hbv] at h; cases h
        | ok vb =>
            rw [hbv] at h
            dsimp only at h
            simp only [Prod.mk.injEq] at h
            obtain ⟨h1, _⟩ := h
            injection h1 with h1
            rw [← h1]

/-- C2 (witness): user 1 creates and updates; the stored owner is 1 even
though the payload names user 9. -/
theorem owner_forced_to_requester_witness :
    ((Budget.mk 5 1 ['a'] [] 0 100 3).userId = 1 ∧
      [Budget.mk 5 1 ['a'] [] 0 100 3] = Budget.mk 5 1 ['a'] [] 0 100 3 :: []) ∧
    (Budget.mk 5 1 ['a'] [] 0 100 3).userId = 1 :=
  ⟨(owner_forced_to_requester [] 1
      (BudgetPayload.mk (some 9) (some ['a']) none (some 0) (some ⟨100, 2⟩)) 5 3 0).1
      (Budget.mk 5 1 ['a'] [] 0 100 3) [Budget.mk 5 1 ['a'] [] 0 100 3] (by rfl),
   (owner_forced_to_requester [Budget.mk 5 1 ['x'] [] 0 100 3] 1
      (BudgetPayload.mk (some 9) (some ['a']) none (some 0) (some ⟨100, 2⟩)) 8 9 5).2.1
      (Budget.mk 5 1 ['a'] [] 0 100 3) [Budget.mk 5 1 ['a'] [] 0 100 3] (by rfl)⟩

/-- C7: the list endpoint returns exactly the requester's budgets, in the
model ordering: date descending, ties by creation time descending. -/
theorem listBudgets_spec (db : List Budget) (u : Nat) :
    (∀ b ∈ listBudgets db u, b.userId = u) ∧
    (∀ b, b ∈ listBudgets db u ↔ (b ∈ db ∧ b.userId = u)) ∧
    List.Sorted budgetOrd (listBudgets db u) := by
  have hmem : ∀ b, b ∈ listBudgets db u ↔ (b ∈ db ∧ b.userId = u) := by
    intro b
    unfold listBudgets get_queryset
    rw [List.mem_insertionSort, List.mem_filter, beq_iff_eq]
  refine ⟨fun b hb => ((hmem b).mp hb).2, hmem, ?_⟩
  exact List.sorted_insertionSort budgetOrd (get_queryset db u)

/-- C7 (witness): two budgets of user 1 and one of user 2; the listing
keeps only user 1's, newest date first. -/
theorem listBudgets_spec_witness :
    (Budget.mk 1 1 ['a'] [] 5 1 1).userId = 1 ∧
    ((Budget.mk 3 2 ['c'] [] 9 1 3) ∈
        listBudgets [Budget.mk 1 1 ['a'] [] 5 1 1, Budget.mk 2 1 ['b'] [] 7 1 2,
          Budget.mk 3 2 ['c'] [] 9 1 3] 1 ↔
      ((Budget.mk 3 2 ['c'] [] 9 1 3) ∈
          [Budget.mk 1 1 ['a'] [] 5 1 1, Budget.mk 2 1 ['b'] [] 7 1 2,
            Budget.mk 3 2 ['c'] [] 9 1 3] ∧
        (Budget.mk 3 2 ['c'] [] 9 1 3).userId = 1)) ∧
    List.Sorted budgetOrd
      (listBudgets [Budget.mk 1 1 ['a'] [] 5 1 1, Budget.mk 2 1 ['b'] [] 7 1 2,
        Budget.mk 3 2 ['c'] [] 9 1 3] 1) :=
  ⟨(listBudgets_spec [Budget.mk 1 1 ['a'] [] 5 1 1, Budget.mk 2 1 ['b'] [] 7 1 2,
      Budget.mk 3 2 ['c'] [] 9 1 3] 1).1 (Budget.mk 1 1 ['a'] [] 5 1 1) (by decide),
   (listBudgets_spec [Budget.mk 1 1 ['a'] [] 5 1 1, Budget.mk 2 1 ['b'] [] 7 1 2,
      Budget.mk 3 2 ['c'] [] 9 1 3] 1).2.1 (Budget.mk 3 2 ['c'] [] 9 1 3),
   (listBudgets_spec [Budget.mk 1 1 ['a'] [] 5 1 1, Budget.mk 2 1 ['b'] [] 7 1 2,
      Budget.mk 3 2 ['c'] [] 9 1 3] 1).2.2⟩

/-- C3: registration fails with a validation error on a taken username, a
taken email, a password/confirmation mismatch, or a password shorter than
eight characters; a successful registration appends exactly one user,
whose stored password is the hash of the submitted one, and answers with
only the username and the email — the response type has no password
field. -/
theorem register_spec (db : List RegUser) (newId : Nat) (p : RegPayload) :
    ((∃ u ∈ db, u.username = p.username) →
      ∃ es, register db newId p = Except.error es) ∧
    ((∃ u ∈ db, u.email = p.email) →
      ∃ es, register db newId p = Except.error es) ∧
    (p.password ≠ p.password_confirm →
      ∃ es, register db newId p = Except.error es) ∧
    (p.password.length < 8 →
      ∃ es, register db newId p = Except.error es) ∧
    (∀ db2 resp, register db newId p = Except.ok (db2, resp) →
      db2 = RegUser.mk newId p.username p.email (hashPassword p.password) :: db ∧
      resp = RegResponse.mk p.username p.email) := by
  refine ⟨?_, ?_, ?_, ?_, ?_⟩
  · rintro ⟨u, hu, he⟩
    have hany : (db.any fun u0 => u0.username == p.username) = true :=
      List.any_eq_true.mpr ⟨u, hu, by simp [he]⟩
    by_cases c1 : p.password.length < 8 <;>
      by_cases c2 : p.password_confirm.length < 8 <;>
        by_cases c3 : (db.any fun u0 => u0.email == p.email) = true <;>
          simp [register, hany, c1, c2, c3]
  · rintro ⟨u, hu, he⟩
    have hany : (db.any fun u0 => u0.email == p.email) = true :=
      List.any_eq_true.mpr ⟨u, hu, by simp [he]⟩
    by_cases c1 : p.password.length < 8 <;>
      by_cases c2 : p.password_confirm.length < 8 <;>
        by_cases c3 : (db.any fun u0 => u0.username == p.username) = true <;>
          simp [register, hany, c1, c2, c3]
  · intro hmis
    by_cases c1 : p.password.length < 8 <;>
      by_cases c2 : p.password_confirm.length < 8 <;>
        by_cases c3 : (db.any fun u0 => u0.username == p.username) = true <;>
          by_cases c4 : (db.any fun u0 => u0.email == p.email) = true <;>
            simp [register, hmis, c1, c2, c3, c4]
  · intro hshort
    by_cases c2 : p.password_confirm.length < 8 <;>
      by_cases c3 : (db.any fun u0 => u0.username == p.username) = true <;>
        by_cases c4 : (db.any fun u0 => u0.email == p.email) = true <;>
          simp [register, hshort, c2, c3, c4]
  · intro db2 resp h
    unfold register at h
    split_ifs at h <;> simp_all

/-- C3 (witness): a taken username, a taken email, a mismatch and a short
password each fail on a one-user store; a fresh registration succeeds and
returns only the username and email. -/
theorem register_spec_witness :
    (∃ es, register [RegUser.mk 0 "alice" "alice@x.com" "h"] 1
      (RegPayload.mk "alice" "new@x.com" "password1" "password1") = Except.error es) ∧
    (∃ es, register [RegUser.mk 0 "alice" "alice@x.com" "h"] 1
      (RegPayload.mk "bob" "alice@x.com" "password1" "password1") = Except.error es) ∧
    (∃ es, register [] 1
      (RegPayload.mk "bob" "b@x.com" "password1" "password2") = Except.error es) ∧
    (∃ es, register [] 1
      (RegPayload.mk "bob" "b@x.com" "pw1" "pw1") = Except.error es) ∧
    ([RegUser.mk 1 "bob" "b@x.com" (hashPassword "password1")] =
        RegUser.mk 1 "bob" "b@x.com" (hashPassword "password1") :: [] ∧
      RegResponse.mk "bob" "b@x.com" = RegResponse.mk "bob" "b@x.com") :=
  ⟨(register_spec [RegUser.mk 0 "alice" "alice@x.com" "h"] 1
      (RegPayload.mk "alice" "new@x.com" "password1" "password1")).1 (by decide),
   (register_spec [RegUser.mk 0 "alice" "alice@x.com" "h"] 1
      (RegPayload.mk "bob" "alice@x.com" "password1" "password1")).2.1 (by decide),
   (register_spec [] 1 (RegPayload.mk "bob" "b@x.com" "password1" "password2")).2.2.1
      (by decide),
   (register_spec [] 1 (RegPayload.mk "bob" "b@x.com" "pw1" "pw1")).2.2.2.1 (by decide),
   (register_spec [] 1 (RegPayload.mk "bob" "b@x.com" "password1" "password1")).2.2.2.2
      [RegUser.mk 1 "bob" "b@x.com" (hashPassword "password1")]
      (RegResponse.mk "bob" "b@x.com") (by rfl)⟩

/-- C4: logout needs an authenticated caller; a missing refresh token and
a token the library cannot verify are 400 with the state untouched; a
verified token is appended to the blacklist and that is the whole state
change — users and budgets stay as they were.  The spec-modelled
`refresh` endpoint takes no server state at all, so no blacklist check is
wired into it. -/
theorem logout_spec (st : ServerState) (u now : Nat) :
    (∀ body, logout st none body now = (LogoutResponse.unauthorized, st)) ∧
    logout st (some u) none now =
      (LogoutResponse.badRequest "Refresh token is required.", st) ∧
    (∀ s, logout st (some u) (some (RawTok.garbage s)) now =
      (LogoutResponse.badRequest "Invalid token: Token is invalid or expired", st)) ∧
    (∀ p : TokPayload, p.exp ≤ now →
      logout st (some u) (some (RawTok.signed p)) now =
        (LogoutResponse.badRequest "Invalid token: Token is invalid or expired", st)) ∧
    (∀ p : TokPayload, now < p.exp →
      logout st (some u) (some (RawTok.signed p)) now =
        (LogoutResponse.okLoggedOut,
          ServerState.mk st.users st.budgets (p :: st.blacklist))) := by
  refine ⟨fun body => rfl, rfl, fun s => rfl, ?_, ?_⟩
  · intro p hexp
    simp [logout, verifyRefresh, hexp]
  · intro p hexp
    simp [logout, verifyRefresh, Nat.not_le.mpr hexp]

/-- C4 (witness): at time 5, user 1: unauthenticated, missing, garbage
and expired tokens give the stated errors without touching the empty
state; a live token is blacklisted. -/
theorem logout_spec_witness :
    logout (ServerState.mk [] [] []) none none 5 =
      (LogoutResponse.unauthorized, ServerState.mk [] [] []) ∧
    logout (ServerState.mk [] [] []) (some 1) none 5 =
      (LogoutResponse.badRequest "Refresh token is required.", ServerState.mk [] [] []) ∧
    logout (ServerState.mk [] [] []) (some 1) (some (RawTok.garbage "zzz")) 5 =
      (LogoutResponse.badRequest "Invalid token: Token is invalid or expired",
        ServerState.mk [] [] []) ∧
    logout (ServerState.mk [] [] []) (some 1) (some (RawTok.signed ⟨2, 3⟩)) 5 =
      (LogoutResponse.badRequest "Invalid token: Token is invalid or expired",
        ServerState.mk [] [] []) ∧
    logout (ServerState.mk [] [] []) (some 1) (some (RawTok.signed ⟨2, 9⟩)) 5 =
      (LogoutResponse.okLoggedOut, ServerState.mk [] [] [⟨2, 9⟩]) :=
  ⟨(logout_spec (ServerState.mk [] [] []) 1 5).1 none,
   (logout_spec (ServerState.mk [] [] []) 1 5).2.1,
   (logout_spec (ServerState.mk [] [] []) 1 5).2.2.1 "zzz",
   (logout_spec (ServerState.mk [] [] []) 1 5).2.2.2.1 ⟨2, 3⟩ (by decide),
   (logout_spec (ServerState.mk [] [] []) 1 5).2.2.2.2 ⟨2, 9⟩ (by decide)⟩

/-- C9: logout never compares the authenticated user with the token's
subject: any structurally valid, unexpired refresh token — here one
issued to a different user — is accepted and blacklisted. -/
theorem logout_ignores_token_subject
    (st : ServerState) (u : Nat) (p : TokPayload) (now : Nat)
    (hexp : now < p.exp) (howner : p.userId ≠ u) :
    logout st (some u) (some (RawTok.signed p)) now =
      (LogoutResponse.okLoggedOut,
        ServerState.mk st.users st.budgets (p :: st.blacklist)) := by
  simp [logout, verifyRefresh, Nat.not_le.mpr hexp]

/-- C9 (witness): user 1 blacklists user 2's live token. -/
theorem logout_ignores_token_subject_witness :
    logout (ServerState.mk [] [] []) (some 1) (some (RawTok.signed ⟨2, 9⟩)) 5 =
      (LogoutResponse.okLoggedOut, ServerState.mk [] [] [⟨2, 9⟩]) :=
  logout_ignores_token_subject (ServerState.mk [] [] []) 1 ⟨2, 9⟩ 5
    (by decide) (by decide)

/-- C8 (spec-modelled): the health-check view answers 200 with body
`status: ok` to every request, and the answer does not depend on the
request's credentials — no authentication is required. -/
theorem health_check_spec (req : HttpRequest) :
    health_check req = HttpResponse.mk 200 [("status", "ok")] ∧
    health_check (HttpRequest.mk none req.path) = health_check req :=
  ⟨rfl, rfl⟩

end BudgetTracker
